import Mathlib

/-!
Shallow embedding of the payloops backend-worker core operations.

Modelling conventions, fixed once for the whole file:

* Timestamps are millisecond-epoch naturals. A single operation in the source
  calls `Date.now()` / `new Date()` several times within microseconds; all of
  those calls inside one invocation are modelled as one instant `now`.
* The relational store is modelled as Lean lists of row structures, one list
  per table, in table order. `select().where(p).limit(1)` is `List.find? p`;
  `update().set(u).where(p)` maps the update over the rows satisfying `p`.
* drizzle-orm's `.set` (`mapUpdateSet` in drizzle-orm/src/utils.ts) filters
  out entries whose value is `undefined` before building the SET clause, so a
  column given the value `undefined` KEEPS its previous value; it is not set
  to NULL. The embedding reflects this: such fields are copied from the old
  row.
* JavaScript truthiness on optional strings: `undefined` and `""` are falsy
  (`jsTruthyStr`).
* External collaborators are parameters of the embedded functions:
  the fetch outcome (`Except String Nat`: a thrown transport error with its
  message, or a completed response with its status code), the HMAC-SHA256 hex
  digest, the AES-256-GCM seal/open primitives, SHA-256 key derivation, and
  JSON credential parsing. The payload is carried in its `JSON.stringify`
  serialization, since serialization itself is external to the code under
  study.
* JavaScript strings in the credential-vault module are modelled as
  `List Char`, with `jsSplit` reproducing `String.prototype.split` on a
  single-character separator.
-/

set_option autoImplicit false

/-- JavaScript truthiness of a `string | undefined` value:
`undefined` and the empty string are falsy. -/
def jsTruthyStr : Option String → Bool
  | none => false
  | some s => s != ""

/-- `response.ok` of the Fetch API: the status code lies in 200..299. -/
def responseOk (status : Nat) : Bool :=
  decide (200 ≤ status ∧ status < 300)

/-- `getRetryDelay` from `src/worker.ts` (lines 179-184):
`baseDelay * 2^(attempt-1)` clamped to `maxDelay`. -/
def getRetryDelay (attempt : Nat) : Nat :=
  let baseDelay := 60 * 1000
  let maxDelay := 24 * 60 * 60 * 1000
  let delay := baseDelay * 2 ^ (attempt - 1)
  min delay maxDelay

/-- A row of the `webhook_events` table (see the drizzle schema). -/
structure WebhookEventRow where
  id : String
  merchantId : String
  orderId : Option String
  eventType : String
  payload : String
  status : String
  attempts : Nat
  lastAttemptAt : Option Nat
  nextRetryAt : Option Nat
  deliveredAt : Option Nat
deriving Repr, DecidableEq

/-- `WebhookDeliveryInput` from `src/worker.ts`. `payload` is carried in its
serialized (`JSON.stringify`) form. -/
structure WebhookDeliveryInput where
  webhookEventId : String
  webhookUrl : String
  webhookSecret : Option String
  payload : String
deriving Repr, DecidableEq

/-- `WebhookDeliveryResult` from `src/worker.ts`. -/
structure WebhookDeliveryResult where
  success : Bool
  statusCode : Option Nat
  attempts : Nat
  deliveredAt : Option Nat
  errorMessage : Option String
deriving Repr, DecidableEq

/-- The outgoing HTTP POST request built by `deliverWebhook`, with headers in
insertion order. -/
structure HttpRequest where
  url : String
  headers : List (String × String)
  body : String
deriving Repr, DecidableEq

/-- Everything observable about one `deliverWebhook` invocation: the request
that was sent, the returned result, and the updated `webhook_events` table. -/
structure DeliverOutcome where
  request : HttpRequest
  result : WebhookDeliveryResult
  events : List WebhookEventRow
deriving Repr, DecidableEq

/-- The attempt-count read at the top of `deliverWebhook`
(`event[0]?.attempts || 0`): the first row matching the event id, or 0 when
there is none. -/
def currentAttempts (events : List WebhookEventRow) (eventId : String) : Nat :=
  match events.find? (fun e => e.id == eventId) with
  | some e => e.attempts
  | none => 0

/-- `deliverWebhook` from `src/worker.ts` (lines 186-264).

Parameters standing for external collaborators:
* `hmacSha256Hex key msg` — `crypto.createHmac('sha256', key).update(msg).digest('hex')`;
* `now` — the invocation instant (`Date.now()` / `new Date()`);
* `fetchResult` — the outcome of the `fetch` call: `.error msg` when the call
  throws (transport error / 30s timeout), with the thrown error's message,
  `.ok status` when a response with that status code is received.

The two `db.update(webhookEvents).set(...)` calls pass `undefined` for
`nextRetryAt` (success branch; catch branch when `attempts >= 5`) and for
`deliveredAt` (non-2xx branch); drizzle drops those entries from the SET
clause, so the embedding keeps the old row's value there. -/
def deliverWebhook (hmacSha256Hex : String → String → String)
    (now : Nat) (fetchResult : Except String Nat)
    (events : List WebhookEventRow) (input : WebhookDeliveryInput) :
    DeliverOutcome :=
  let attempts := currentAttempts events input.webhookEventId + 1
  let body := input.payload
  let baseHeaders : List (String × String) :=
    [("Content-Type", "application/json"),
     ("X-Loop-Event-Id", input.webhookEventId),
     ("X-Loop-Timestamp", toString now)]
  let headers :=
    if jsTruthyStr input.webhookSecret then
      baseHeaders ++
        [("X-Loop-Signature",
          "v1=" ++ hmacSha256Hex (input.webhookSecret.getD "")
            (toString now ++ "." ++ body))]
    else baseHeaders
  let request : HttpRequest := ⟨input.webhookUrl, headers, body⟩
  match fetchResult with
  | Except.ok status =>
      let success := responseOk status
      let events' := events.map fun e =>
        if e.id == input.webhookEventId then
          { e with
            status := if success then "delivered" else "pending"
            attempts := attempts
            lastAttemptAt := some now
            deliveredAt := if success then some now else e.deliveredAt
            nextRetryAt :=
              if success then e.nextRetryAt
              else some (now + getRetryDelay attempts) }
        else e
      ⟨request,
       ⟨success, some status, attempts,
        if success then some now else none,
        if success then none else some ("HTTP " ++ toString status)⟩,
       events'⟩
  | Except.error msg =>
      let events' := events.map fun e =>
        if e.id == input.webhookEventId then
          { e with
            status := if 5 ≤ attempts then "failed" else "pending"
            attempts := attempts
            lastAttemptAt := some now
            nextRetryAt :=
              if 5 ≤ attempts then e.nextRetryAt
              else some (now + getRetryDelay attempts) }
        else e
      ⟨request, ⟨false, none, attempts, none, some msg⟩, events'⟩

/-- A row of the `orders` table (fields relevant to the operations studied
here; remaining schema columns do not influence any operation below). -/
structure OrderRow where
  id : String
  merchantId : String
  externalId : String
  amount : Int
  currency : String
  status : String
  processorOrderId : Option String
  updatedAt : Nat
deriving Repr, DecidableEq

/-- A row of the `transactions` table as inserted by `updateOrderStatus`
(columns not supplied by the insert take their schema defaults and are
omitted). -/
structure TransactionRow where
  orderId : String
  type : String
  amount : Int
  status : String
  processorTransactionId : Option String
deriving Repr, DecidableEq

/-- `UpdateOrderStatusInput` from `src/worker.ts`. -/
structure UpdateOrderStatusInput where
  orderId : String
  status : String
  processorOrderId : Option String
  processorTransactionId : Option String
deriving Repr, DecidableEq

/-- The per-row effect of the `db.update(orders).set(...)` statement in
`updateOrderStatus`: the SET clause passes
`processorOrderId: processorOrderId || undefined`, and drizzle drops
`undefined` entries, so a falsy input leaves the stored value unchanged. -/
def applyOrderUpdate (now : Nat) (input : UpdateOrderStatusInput) (o : OrderRow) :
    OrderRow :=
  if o.id == input.orderId then
    { o with
      status := input.status
      processorOrderId :=
        if jsTruthyStr input.processorOrderId then input.processorOrderId
        else o.processorOrderId
      updatedAt := now }
  else o

/-- `updateOrderStatus` from `src/worker.ts` (lines 109-143): the order
update (`applyOrderUpdate` applied to every row matching the id) followed by
the conditional transaction insert, which re-reads the order AFTER the update
(`if (processorTransactionId) { const order = await db.select()... }`) and is
skipped when the re-read returns no row. -/
def updateOrderStatus (now : Nat)
    (orders : List OrderRow) (transactions : List TransactionRow)
    (input : UpdateOrderStatusInput) :
    List OrderRow × List TransactionRow :=
  let orders' := orders.map (applyOrderUpdate now input)
  if jsTruthyStr input.processorTransactionId then
    match orders'.find? (fun o => o.id == input.orderId) with
    | some order =>
        (orders',
         transactions ++
           [{ orderId := input.orderId
              type :=
                if input.status == "captured" then "capture"
                else if input.status == "authorized" then "authorization"
                else "authorization"
              amount := order.amount
              status := if input.status == "failed" then "failed" else "success"
              processorTransactionId := input.processorTransactionId }])
    | none => (orders', transactions)
  else (orders', transactions)

/-- A row of the `processor_configs` table. -/
structure ProcessorConfigRow where
  id : String
  merchantId : String
  processor : String
  credentialsEncrypted : String
  priority : Int
  enabled : Bool
  testMode : Bool
deriving Repr, DecidableEq

/-- `PaymentConfig` from `src/worker.ts`; credentials as a key-value list
(the parsed JSON object, keys in object order). -/
structure PaymentConfig where
  merchantId : String
  processor : String
  testMode : Bool
  credentials : List (String × String)
deriving Repr, DecidableEq

/-- `getProcessorConfig` from `src/worker.ts` (lines 78-103).
`decryptJson` stands for `JSON.parse(decrypt(·))` applied to the stored
encrypted credential blob. The query filters on merchant id and processor
only — no `enabled` filter, no `orderBy` — and takes the first row the store
returns (list order here). -/
def getProcessorConfig (decryptJson : String → List (String × String))
    (configs : List ProcessorConfigRow) (merchantId processor : String) :
    Option PaymentConfig :=
  match configs.find? (fun c => c.merchantId == merchantId && c.processor == processor) with
  | none => none
  | some c => some ⟨merchantId, processor, c.testMode, decryptJson c.credentialsEncrypted⟩

/-! ## Credential vault (`lib/crypto.ts`)

JavaScript strings are modelled as `List Char` here, so that
`String.prototype.split(':')` can be embedded as an executable recursion. -/

/-- One lowercase hex digit, `n < 16` (`Buffer.toString('hex')` is
lowercase). -/
def hexDigitChar (n : Nat) : Char :=
  if n < 10 then Char.ofNat (48 + n) else Char.ofNat (87 + n)

/-- Hex value of one character; `Buffer.from(s, 'hex')` accepts both cases. -/
def hexDigitVal (c : Char) : Option Nat :=
  let n := c.toNat
  if 48 ≤ n ∧ n ≤ 57 then some (n - 48)
  else if 97 ≤ n ∧ n ≤ 102 then some (n - 87)
  else if 65 ≤ n ∧ n ≤ 70 then some (n - 55)
  else none

/-- `Buffer.toString('hex')`: two lowercase digits per byte. -/
def hexEncode : List Nat → List Char
  | [] => []
  | b :: bs => hexDigitChar (b / 16) :: hexDigitChar (b % 16) :: hexEncode bs

/-- `Buffer.from(·, 'hex')`: node decodes pairs of hex digits and stops at the
first character pair that is not valid hex (or at an odd trailing digit). -/
def hexDecode : List Char → List Nat
  | c1 :: c2 :: rest =>
      match hexDigitVal c1, hexDigitVal c2 with
      | some h, some l => (16 * h + l) :: hexDecode rest
      | _, _ => []
  | _ => []

/-- `String.prototype.split(sep)` for a one-character separator: splits at
every occurrence, keeping empty pieces; `""` splits to `[""]`. -/
def jsSplit (sep : Char) : List Char → List (List Char)
  | [] => [[]]
  | c :: rest =>
      if c = sep then [] :: jsSplit sep rest
      else
        match jsSplit sep rest with
        | [] => [[c]]
        | p :: ps => (c :: p) :: ps

/-- `getKey` from `lib/crypto.ts`: the AES key is the SHA-256 digest of the
configured secret. `sha256h` stands for
`createHash('sha256').update(·).digest()`. -/
def getKey (sha256h : String → List Nat) (encryptionKey : String) : List Nat :=
  sha256h encryptionKey

/-- How a `decrypt` call can throw in `lib/crypto.ts` (which defines no error
classes of its own):
* `typeError` — a generic error raised before the AEAD runs, canonically the
  `TypeError` from `Buffer.from(undefined, 'hex')` / `decipher.update(undefined)`
  when the destructured split yields fewer than three parts;
* `authError` — `decipher.final()` throwing because the GCM authentication
  tag does not verify. -/
inductive DecryptError where
  | typeError
  | authError
deriving Repr, DecidableEq

/-- `encrypt` from `lib/crypto.ts` (lines 116-126 of the module file).
`aeadSeal key iv plaintext = (ciphertext, authTag)` stands for the
AES-256-GCM cipher (`createCipheriv` + `update`/`final` + `getAuthTag`); the
fresh `randomBytes(16)` IV is the explicit argument `iv`. The envelope is
`hex(iv) : hex(authTag) : hex(ciphertext)`. -/
def encrypt (aeadSeal : List Nat → List Nat → String → List Nat × List Nat)
    (sha256h : String → List Nat) (encryptionKey : String)
    (iv : List Nat) (text : String) : List Char :=
  let sealed := aeadSeal (getKey sha256h encryptionKey) iv text
  hexEncode iv ++ ':' :: (hexEncode sealed.2 ++ ':' :: hexEncode sealed.1)

/-- `decrypt` from `lib/crypto.ts` (lines 128-141 of the module file).
`const [ivHex, authTagHex, encrypted] = encryptedText.split(':')` destructures
the FIRST THREE parts of the split and ignores any further parts; a missing
part is `undefined` and makes the subsequent buffer/decipher calls throw
(`typeError`). `aeadOpen key iv ciphertext tag` stands for the AES-256-GCM
decipher, returning `none` when the tag does not verify (`final()` throws,
`authError`). -/
def decrypt (aeadOpen : List Nat → List Nat → List Nat → List Nat → Option String)
    (sha256h : String → List Nat) (encryptionKey : String)
    (encryptedText : List Char) : Except DecryptError String :=
  let parts := jsSplit ':' encryptedText
  match parts[0]?, parts[1]?, parts[2]? with
  | some ivHex, some authTagHex, some encryptedHex =>
      let iv := hexDecode ivHex
      let authTag := hexDecode authTagHex
      let ct := hexDecode encryptedHex
      match aeadOpen (getKey sha256h encryptionKey) iv ct authTag with
      | some plain => Except.ok plain
      | none => Except.error DecryptError.authError
  | _, _, _ => Except.error DecryptError.typeError

/-! ### Concrete instantiations of the external primitives

Used to evaluate the vault on closed inputs. `toySeal`/`toyOpen` form an
AEAD pair that round-trips on plaintexts whose code points fit in a byte and
whose `toyOpen` accepts exactly the triples `toySeal` produces — the same
acceptance behaviour real AES-256-GCM exhibits on a genuine envelope's
(iv, ciphertext, tag) triple. -/

/-- A concrete seal: ciphertext = the plaintext's code points (mod 256),
tag = the constant `[1]`. -/
def toySeal (_key _iv : List Nat) (text : String) : List Nat × List Nat :=
  (text.toList.map (fun c => c.toNat % 256), [1])

/-- The matching open: accepts tag `[1]` and decodes the code points. -/
def toyOpen (_key _iv : List Nat) (ct tag : List Nat) : Option String :=
  if tag = [1] then some (String.mk (ct.map Char.ofNat)) else none

/-- A concrete stand-in for the SHA-256 key derivation: a constant 32-byte
digest. -/
def constDigest : String → List Nat := fun _ => List.replicate 32 7

/-- A concrete stand-in for the HMAC-SHA256 hex digest. -/
def constHmac : String → String → String := fun key msg => key ++ "#" ++ msg

/-! ## Helper lemmas for the credential vault -/

/-- Hex digits decode back to their value. -/
theorem hexDigitVal_hexDigitChar : ∀ n, n < 16 → hexDigitVal (hexDigitChar n) = some n := by
  decide

/-- A hex digit is never the envelope delimiter. -/
theorem hexDigitChar_ne_colon : ∀ n, n < 16 → hexDigitChar n ≠ ':' := by
  decide

/-- The delimiter does not occur in hex-encoded output. -/
theorem colon_not_mem_hexEncode :
    ∀ (bs : List Nat), (∀ b ∈ bs, b < 256) → ':' ∉ hexEncode bs := by
  intro bs
  induction bs with
  | nil => intro _; simp [hexEncode]
  | cons b bs ih =>
    intro h
    have hb : b < 256 := h b (by simp)
    have h1 : b / 16 < 16 := by omega
    have h2 : b % 16 < 16 := by omega
    have := hexDigitChar_ne_colon (b / 16) h1
    have := hexDigitChar_ne_colon (b % 16) h2
    simp only [hexEncode, List.mem_cons, not_or]
    exact ⟨by tauto, by tauto, ih (fun x hx => h x (by simp [hx]))⟩

/-- Hex decoding inverts hex encoding on byte lists. -/
theorem hexDecode_hexEncode :
    ∀ (bs : List Nat), (∀ b ∈ bs, b < 256) → hexDecode (hexEncode bs) = bs := by
  intro bs
  induction bs with
  | nil => intro _; rfl
  | cons b bs ih =>
    intro h
    have hb : b < 256 := h b (by simp)
    have h1 : b / 16 < 16 := by omega
    have h2 : b % 16 < 16 := by omega
    simp only [hexEncode, hexDecode, hexDigitVal_hexDigitChar _ h1,
      hexDigitVal_hexDigitChar _ h2]
    refine List.cons_eq_cons.mpr ⟨by omega, ih (fun x hx => h x (by simp [hx]))⟩

/-- `split` on a piece free of the separator returns that single piece. -/
theorem jsSplit_of_not_mem {sep : Char} :
    ∀ {a : List Char}, sep ∉ a → jsSplit sep a = [a] := by
  intro a
  induction a with
  | nil => intro _; rfl
  | cons c rest ih =>
    intro h
    have hc : ¬ c = sep := fun hcs => h (by simp [hcs])
    have hrest : sep ∉ rest := fun hm => h (by simp [hm])
    simp [jsSplit, hc, ih hrest]

/-- `split` peels off a separator-free prefix before the first separator. -/
theorem jsSplit_append {sep : Char} :
    ∀ {a rest : List Char}, sep ∉ a →
      jsSplit sep (a ++ sep :: rest) = a :: jsSplit sep rest := by
  intro a
  induction a with
  | nil => intro rest _; simp [jsSplit]
  | cons c a ih =>
    intro rest h
    have hc : ¬ c = sep := fun hcs => h (by simp [hcs])
    have ha : sep ∉ a := fun hm => h (by simp [hm])
    simp [jsSplit, hc, ih ha]

/-- Splitting an envelope with two separator-free leading pieces. -/
theorem jsSplit_three {A B rest : List Char} (hA : ':' ∉ A) (hB : ':' ∉ B) :
    jsSplit ':' (A ++ ':' :: (B ++ ':' :: rest)) = A :: B :: jsSplit ':' rest := by
  rw [jsSplit_append hA, jsSplit_append hB]

/-! ## Claims -/

/-- C4: for every attempt ≥ 1, the retry backoff delay equals
`min(60000 * 2^(attempt-1), 86400000)` milliseconds; in particular
`delay 1 = 60000`, `delay 5 = 960000` and `delay 30 = 86400000`,
deterministically (a pure function of the attempt number, no jitter). -/
theorem getRetryDelay_spec :
    (∀ attempt : Nat, 1 ≤ attempt →
        getRetryDelay attempt = min (60000 * 2 ^ (attempt - 1)) 86400000)
    ∧ getRetryDelay 1 = 60000 ∧ getRetryDelay 5 = 960000
    ∧ getRetryDelay 30 = 86400000 :=
  ⟨fun _ _ => rfl, by decide, by decide, by decide⟩

/-- Witness for `getRetryDelay_spec`, instantiated at attempt 7. -/
theorem getRetryDelay_spec_witness :
    1 ≤ 7 ∧ getRetryDelay 7 = min (60000 * 2 ^ (7 - 1)) 86400000 :=
  ⟨by decide, getRetryDelay_spec.1 7 (by decide)⟩

/-- C6: for every plaintext, `decrypt (encrypt plaintext) = plaintext`:
`encrypt` seals with the key derived by SHA-256 from the configured secret and
a (fresh, 16-byte) IV, producing the envelope
`hex(iv) : hex(authTag) : hex(ciphertext)`, and `decrypt` — using the same
derived key — recovers the plaintext, provided the AEAD primitive itself
round-trips (its correctness is a property of AES-256-GCM, outside the code
under study) and produces byte-valued output. -/
theorem decrypt_encrypt_roundtrip
    (aeadSeal : List Nat → List Nat → String → List Nat × List Nat)
    (aeadOpen : List Nat → List Nat → List Nat → List Nat → Option String)
    (sha256h : String → List Nat) (encryptionKey : String)
    (iv : List Nat) (text : String)
    (_hivlen : iv.length = 16)
    (hiv : ∀ b ∈ iv, b < 256)
    (hct : ∀ b ∈ (aeadSeal (getKey sha256h encryptionKey) iv text).1, b < 256)
    (htag : ∀ b ∈ (aeadSeal (getKey sha256h encryptionKey) iv text).2, b < 256)
    (hopen : aeadOpen (getKey sha256h encryptionKey) iv
        (aeadSeal (getKey sha256h encryptionKey) iv text).1
        (aeadSeal (getKey sha256h encryptionKey) iv text).2 = some text) :
    decrypt aeadOpen sha256h encryptionKey
      (encrypt aeadSeal sha256h encryptionKey iv text) = Except.ok text := by
  simp only [encrypt, decrypt]
  rw [jsSplit_three (colon_not_mem_hexEncode _ hiv) (colon_not_mem_hexEncode _ htag),
    jsSplit_of_not_mem (colon_not_mem_hexEncode _ hct)]
  simp only [List.getElem?_cons_zero, List.getElem?_cons_succ]
  rw [hexDecode_hexEncode _ hiv, hexDecode_hexEncode _ htag, hexDecode_hexEncode _ hct,
    hopen]

/-- Witness for `decrypt_encrypt_roundtrip`: the concrete AEAD pair
`toySeal`/`toyOpen`, key digest `constDigest`, a 16-byte IV and plaintext
`"ab"`. -/
theorem decrypt_encrypt_roundtrip_witness :
    decrypt toyOpen constDigest "k"
      (encrypt toySeal constDigest "k" (List.replicate 16 0) "ab") = Except.ok "ab" :=
  decrypt_encrypt_roundtrip toySeal toyOpen constDigest "k" (List.replicate 16 0) "ab"
    (by decide) (by decide) (by decide) (by decide) (by decide)

/-- C7 (amended): `decrypt` examines only the first three colon-separated
parts of its input. When the split yields fewer than three parts, the
destructured `undefined` makes the buffer/decipher calls throw a generic
`TypeError` — the module defines no `MalformedEnvelopeError` (nor
`IntegrityError`) class. When the split yields three or MORE parts, the extra
parts are silently ignored: appending `":junk"` to a valid envelope still
decrypts successfully. -/
theorem decrypt_parts_handling
    (aeadSeal : List Nat → List Nat → String → List Nat × List Nat)
    (aeadOpen : List Nat → List Nat → List Nat → List Nat → Option String)
    (sha256h : String → List Nat) (encryptionKey : String)
    (iv : List Nat) (text : String) (junk : List Char) (s : List Char)
    (hsplit : (jsSplit ':' s).length < 3)
    (hiv : ∀ b ∈ iv, b < 256)
    (hct : ∀ b ∈ (aeadSeal (getKey sha256h encryptionKey) iv text).1, b < 256)
    (htag : ∀ b ∈ (aeadSeal (getKey sha256h encryptionKey) iv text).2, b < 256)
    (hopen : aeadOpen (getKey sha256h encryptionKey) iv
        (aeadSeal (getKey sha256h encryptionKey) iv text).1
        (aeadSeal (getKey sha256h encryptionKey) iv text).2 = some text) :
    decrypt aeadOpen sha256h encryptionKey s = Except.error DecryptError.typeError
    ∧ decrypt aeadOpen sha256h encryptionKey
        (encrypt aeadSeal sha256h encryptionKey iv text ++ ':' :: junk) =
      Except.ok text := by
  constructor
  · have h2 : (jsSplit ':' s)[2]? = none := List.getElem?_eq_none (by omega)
    simp only [decrypt]
    rcases h0 : (jsSplit ':' s)[0]? with _ | p0 <;>
      rcases h1 : (jsSplit ':' s)[1]? with _ | p1 <;>
        simp [h0, h1, h2]
  · simp only [encrypt, decrypt, List.cons_append, List.append_assoc]
    rw [jsSplit_three (colon_not_mem_hexEncode _ hiv) (colon_not_mem_hexEncode _ htag),
      jsSplit_append (colon_not_mem_hexEncode _ hct)]
    simp only [List.getElem?_cons_zero, List.getElem?_cons_succ]
    rw [hexDecode_hexEncode _ hiv, hexDecode_hexEncode _ htag, hexDecode_hexEncode _ hct,
      hopen]

/-- Witness for `decrypt_parts_handling`: the two-part input `"aa:bb"` and the
valid envelope for `"ab"` (under `toySeal`/`toyOpen`) with `":junk"`
appended. -/
theorem decrypt_parts_handling_witness :
    decrypt toyOpen constDigest "k" "aa:bb".toList = Except.error DecryptError.typeError
    ∧ decrypt toyOpen constDigest "k"
        (encrypt toySeal constDigest "k" (List.replicate 16 0) "ab" ++ ':' :: "junk".toList) =
      Except.ok "ab" :=
  decrypt_parts_handling toySeal toyOpen constDigest "k" (List.replicate 16 0) "ab"
    "junk".toList "aa:bb".toList (by decide) (by decide) (by decide) (by decide) (by decide)

/-- C7 counterexample: a concrete input that splits into FOUR parts — a valid
envelope with `":junk"` appended — on which `decrypt` does not fail at all
(with any error, let alone a `MalformedEnvelopeError`): it returns the
plaintext. The abstract AEAD is instantiated with `toyOpen`, which accepts
the envelope's (iv, ciphertext, tag) triple exactly as real AES-256-GCM
accepts the triple of a genuine envelope. -/
theorem decrypt_extra_parts_cex :
    (jsSplit ':'
        (encrypt toySeal constDigest "k" (List.replicate 16 0) "ab" ++ ':' :: "junk".toList)).length
      = 4
    ∧ decrypt toyOpen constDigest "k"
        (encrypt toySeal constDigest "k" (List.replicate 16 0) "ab" ++ ':' :: "junk".toList) =
      Except.ok "ab" := by
  constructor
  · decide
  · rfl

/-- C1 (amended): when the POST completes with a 2xx response, every stored
row of the webhook event is updated to status `delivered` with
`deliveredAt = now` (non-null) and `attempts` incremented, and the result is
success with the response's status code and the incremented attempt count —
but `nextRetryAt` is NOT cleared to null: the update passes `undefined`,
which drizzle omits from the SET clause, so the row keeps its previous
`nextRetryAt` (visible below as `nextRetryAt := e.nextRetryAt`). -/
theorem deliverWebhook_2xx_marks_delivered
    (hmac : String → String → String) (now code : Nat)
    (events : List WebhookEventRow) (input : WebhookDeliveryInput)
    (h200 : 200 ≤ code) (h300 : code < 300) :
    (deliverWebhook hmac now (Except.ok code) events input).result =
      ⟨true, some code, currentAttempts events input.webhookEventId + 1, some now, none⟩
    ∧ (deliverWebhook hmac now (Except.ok code) events input).events =
      events.map (fun e =>
        if e.id == input.webhookEventId then
          { e with
            status := "delivered"
            attempts := currentAttempts events input.webhookEventId + 1
            lastAttemptAt := some now
            deliveredAt := some now
            nextRetryAt := e.nextRetryAt }
        else e) := by
  have hok : responseOk code = true := by
    simp only [responseOk, decide_eq_true_eq]
    exact ⟨h200, h300⟩
  constructor
  · simp [deliverWebhook, hok]
  · simp [deliverWebhook, hok]

/-- Witness for `deliverWebhook_2xx_marks_delivered`: a 204 response on a
store holding the event at 0 prior attempts. -/
theorem deliverWebhook_2xx_marks_delivered_witness :
    (deliverWebhook constHmac 7 (Except.ok 204)
        [⟨"e1", "m1", none, "order.paid", "{}", "pending", 0, none, none, none⟩]
        ⟨"e1", "https://h.example", none, "{}"⟩).result =
      ⟨true, some 204, 1, some 7, none⟩ :=
  (deliverWebhook_2xx_marks_delivered constHmac 7 204
    [⟨"e1", "m1", none, "order.paid", "{}", "pending", 0, none, none, none⟩]
    ⟨"e1", "https://h.example", none, "{}"⟩ (by decide) (by decide)).1

/-- C1 counterexample: a 200 response for an event whose row carries a
previously scheduled `nextRetryAt = some 999`. The row is marked `delivered`
with `deliveredAt` stamped, yet `nextRetryAt` remains `some 999` — not the
null the claim requires. -/
theorem deliverWebhook_2xx_stale_nextRetryAt_cex :
    (deliverWebhook constHmac 1000 (Except.ok 200)
        [⟨"e1", "m1", none, "order.paid", "{}", "pending", 1, some 10, some 999, none⟩]
        ⟨"e1", "https://h.example", none, "{}"⟩).events.map
        (fun e => (e.status, e.deliveredAt, e.nextRetryAt)) =
      [("delivered", some 1000, some 999)]
    ∧ (some 999 : Option Nat) ≠ none := by
  constructor
  · rfl
  · decide

/-- C2 (amended): when the POST throws, the exception is not re-thrown — the
call returns `success = false` with the caught error's message, the
incremented attempt count and no status code; the stored event becomes
`failed` when the new attempt number is ≥ 5 and `pending` with
`nextRetryAt = now + backoff(attempt)` otherwise. On the `failed` branch
`nextRetryAt` is NOT cleared: the update passes `undefined` there, which
drizzle omits from the SET clause, so the row keeps its previous value
(visible below as `nextRetryAt := e.nextRetryAt`). -/
theorem deliverWebhook_exception_path
    (hmac : String → String → String) (now : Nat) (msg : String)
    (events : List WebhookEventRow) (input : WebhookDeliveryInput) :
    (deliverWebhook hmac now (Except.error msg) events input).result =
      ⟨false, none, currentAttempts events input.webhookEventId + 1, none, some msg⟩
    ∧ (deliverWebhook hmac now (Except.error msg) events input).events =
      events.map (fun e =>
        if e.id == input.webhookEventId then
          (if 5 ≤ currentAttempts events input.webhookEventId + 1 then
            { e with
              status := "failed"
              attempts := currentAttempts events input.webhookEventId + 1
              lastAttemptAt := some now
              nextRetryAt := e.nextRetryAt }
          else
            { e with
              status := "pending"
              attempts := currentAttempts events input.webhookEventId + 1
              lastAttemptAt := some now
              nextRetryAt :=
                some (now + getRetryDelay (currentAttempts events input.webhookEventId + 1)) })
        else e) := by
  refine ⟨by simp [deliverWebhook], ?_⟩
  simp only [deliverWebhook]
  apply List.map_congr_left
  intro e _
  by_cases hid : e.id == input.webhookEventId
  · by_cases h5 : 5 ≤ currentAttempts events input.webhookEventId + 1 <;>
      simp [hid, h5]
  · simp [hid]

/-- C2 counterexample: a transport error on the fifth attempt (stored
attempts 4) for a row whose previous failure had scheduled
`nextRetryAt = some 999`. The row is marked `failed`, but `nextRetryAt`
remains `some 999` instead of being cleared. -/
theorem deliverWebhook_exception_attempt5_nextRetryAt_cex :
    (deliverWebhook constHmac 1000 (Except.error "connect ETIMEDOUT")
        [⟨"e1", "m1", none, "order.paid", "{}", "pending", 4, some 10, some 999, none⟩]
        ⟨"e1", "https://h.example", none, "{}"⟩).events.map
        (fun e => (e.status, e.attempts, e.nextRetryAt)) =
      [("failed", 5, some 999)]
    ∧ (some 999 : Option Nat) ≠ none := by
  constructor
  · rfl
  · decide

/-- C3: on a non-2xx response — no matter how large the stored attempt count
is — the event is never marked `failed`: every matching row is set to
`pending` with `lastAttemptAt` stamped and `nextRetryAt` scheduled via the
backoff function, and the result is failure with the response's status code
and error message `HTTP <code>`. -/
theorem deliverWebhook_non2xx_always_retries
    (hmac : String → String → String) (now code : Nat)
    (events : List WebhookEventRow) (input : WebhookDeliveryInput)
    (hnok : ¬ (200 ≤ code ∧ code < 300)) :
    (deliverWebhook hmac now (Except.ok code) events input).result =
      ⟨false, some code, currentAttempts events input.webhookEventId + 1, none,
       some ("HTTP " ++ toString code)⟩
    ∧ (deliverWebhook hmac now (Except.ok code) events input).events =
      events.map (fun e =>
        if e.id == input.webhookEventId then
          { e with
            status := "pending"
            attempts := currentAttempts events input.webhookEventId + 1
            lastAttemptAt := some now
            nextRetryAt :=
              some (now + getRetryDelay (currentAttempts events input.webhookEventId + 1)) }
        else e)
    ∧ ∀ e ∈ (deliverWebhook hmac now (Except.ok code) events input).events,
        e.id = input.webhookEventId → e.status = "pending" := by
  have hok : responseOk code = false := by
    simp only [responseOk, decide_eq_false_iff_not]
    exact hnok
  refine ⟨by simp [deliverWebhook, hok], by simp [deliverWebhook, hok], ?_⟩
  intro e he heid
  simp only [deliverWebhook, hok, List.mem_map] at he
  obtain ⟨e₀, _, he₀⟩ := he
  by_cases hid : e₀.id == input.webhookEventId
  · simp only [hid, if_true, Bool.false_eq_true] at he₀
    rw [← he₀]
    simp
  · simp only [hid, if_false, Bool.false_eq_true] at he₀
    rw [← he₀] at heid
    exact absurd heid (by simpa using hid)

/-- Witness for `deliverWebhook_non2xx_always_retries`: a 500 response on the
41st attempt (stored attempts 40, far past the 5-attempt cap of the exception
path) still yields `pending` with a scheduled retry. -/
theorem deliverWebhook_non2xx_always_retries_witness :
    (deliverWebhook constHmac 1000 (Except.ok 500)
        [⟨"e1", "m1", none, "order.paid", "{}", "pending", 40, some 10, some 999, none⟩]
        ⟨"e1", "https://h.example", none, "{}"⟩).result =
      ⟨false, some 500, 41, none, some "HTTP 500"⟩ :=
  (deliverWebhook_non2xx_always_retries constHmac 1000 500
    [⟨"e1", "m1", none, "order.paid", "{}", "pending", 40, some 10, some 999, none⟩]
    ⟨"e1", "https://h.example", none, "{}"⟩ (by decide)).1

/-- C5 (amended): when a NON-EMPTY webhook secret is provided, the outgoing
request carries exactly the three base headers followed by
`X-Loop-Signature: v1=<hmacSha256Hex secret "<timestamp>.<body>">`, where the
signed string joins the `X-Loop-Timestamp` header's value and the serialized
body with a dot; when the secret is absent OR the empty string (which is
falsy in JavaScript, so `if (webhookSecret)` skips signing), the signature
header is omitted entirely. -/
theorem signature_header_spec
    (hmac : String → String → String) (now : Nat) (fetchResult : Except String Nat)
    (events : List WebhookEventRow) (input : WebhookDeliveryInput) :
    (∀ s, input.webhookSecret = some s → s ≠ "" →
      (deliverWebhook hmac now fetchResult events input).request.headers =
        [("Content-Type", "application/json"),
         ("X-Loop-Event-Id", input.webhookEventId),
         ("X-Loop-Timestamp", toString now),
         ("X-Loop-Signature",
          "v1=" ++ hmac s (toString now ++ "." ++ input.payload))])
    ∧ (input.webhookSecret = none ∨ input.webhookSecret = some "" →
      (deliverWebhook hmac now fetchResult events input).request.headers =
        [("Content-Type", "application/json"),
         ("X-Loop-Event-Id", input.webhookEventId),
         ("X-Loop-Timestamp", toString now)]) := by
  constructor
  · intro s hs hne
    cases fetchResult <;> simp [deliverWebhook, hs, jsTruthyStr, hne]
  · intro habs
    have ht : jsTruthyStr input.webhookSecret = false := by
      rcases habs with h | h <;> simp [jsTruthyStr, h]
    cases fetchResult <;> simp [deliverWebhook, ht]

/-- Witness for `signature_header_spec`: secret `"sec"` under the concrete
HMAC stand-in, and the absent-secret case. -/
theorem signature_header_spec_witness :
    (deliverWebhook constHmac 1000 (Except.ok 200) []
        ⟨"e1", "https://h.example", some "sec", "{}"⟩).request.headers =
      [("Content-Type", "application/json"),
       ("X-Loop-Event-Id", "e1"),
       ("X-Loop-Timestamp", "1000"),
       ("X-Loop-Signature", "v1=sec#1000.{}")] :=
  (signature_header_spec constHmac 1000 (Except.ok 200) []
    ⟨"e1", "https://h.example", some "sec", "{}"⟩).1 "sec" rfl (by decide)

/-- C5 counterexample: the secret `""` is PRESENT (`some ""` ≠ `none`), yet
the request carries no signature header — JavaScript truthiness drops it. -/
theorem signature_header_empty_secret_cex :
    (deliverWebhook constHmac 7 (Except.ok 200) []
        ⟨"e1", "https://h.example", some "", "p"⟩).request.headers.map Prod.fst =
      ["Content-Type", "X-Loop-Event-Id", "X-Loop-Timestamp"]
    ∧ (some "" : Option String) ≠ none := by
  constructor
  · rfl
  · decide

/-! ## Helper lemmas for the order ledger and config lookup -/

/-- The order update never changes a row's primary key. -/
theorem applyOrderUpdate_id (now : Nat) (input : UpdateOrderStatusInput) (o : OrderRow) :
    (applyOrderUpdate now input o).id = o.id := by
  by_cases h : o.id == input.orderId <;> simp [applyOrderUpdate, h]

/-- Re-reading by id after the order update finds the updated image of the
row the pre-update read would have found. -/
theorem find?_map_applyOrderUpdate (now : Nat) (input : UpdateOrderStatusInput)
    (orders : List OrderRow) :
    (orders.map (applyOrderUpdate now input)).find? (fun o => o.id == input.orderId) =
      (orders.find? (fun o => o.id == input.orderId)).map (applyOrderUpdate now input) := by
  have hp : ((fun o : OrderRow => o.id == input.orderId) ∘ applyOrderUpdate now input) =
      (fun o : OrderRow => o.id == input.orderId) := by
    funext o
    simp [Function.comp, applyOrderUpdate_id]
  rw [List.find?_map, hp]

/-- C8: an `updateOrderStatus` call with a (non-empty) processor transaction
id on an existing order appends exactly one Transaction row: its amount is
the re-read order's amount (which the status update leaves unchanged), its
type is `capture` exactly when the status argument is `captured` and
`authorization` for any other status, and its status is `failed` exactly when
the order status argument is `failed`, else `success`. -/
theorem updateOrderStatus_inserts_transaction
    (now : Nat) (orders : List OrderRow) (txs : List TransactionRow)
    (input : UpdateOrderStatusInput) (o₀ : OrderRow)
    (htruthy : jsTruthyStr input.processorTransactionId = true)
    (hfind : orders.find? (fun o => o.id == input.orderId) = some o₀) :
    (updateOrderStatus now orders txs input).2 =
      txs ++ [⟨input.orderId,
              if input.status = "captured" then "capture" else "authorization",
              o₀.amount,
              if input.status = "failed" then "failed" else "success",
              input.processorTransactionId⟩]
    ∧ ((updateOrderStatus now orders txs input).1.find?
        (fun o => o.id == input.orderId)).map (fun o => o.amount) = some o₀.amount := by
  have hid := List.find?_some hfind
  have hre : (orders.map (applyOrderUpdate now input)).find?
      (fun o => o.id == input.orderId) = some (applyOrderUpdate now input o₀) := by
    rw [find?_map_applyOrderUpdate, hfind, Option.map_some']
  have hamount : (applyOrderUpdate now input o₀).amount = o₀.amount := by
    simp [applyOrderUpdate, hid]
  constructor
  · simp only [updateOrderStatus, htruthy, if_true, hre, hamount]
    refine congrArg (txs ++ [·]) ?_
    by_cases hc : input.status = "captured"
    · simp [hc]
    · by_cases ha : input.status = "authorized" <;> simp [hc, ha]
  · have : (updateOrderStatus now orders txs input).1 =
        orders.map (applyOrderUpdate now input) := by
      simp only [updateOrderStatus, htruthy, if_true, hre]
    rw [this, hre, Option.map_some', hamount]

/-- Witness for `updateOrderStatus_inserts_transaction`: capturing an order
of amount 42 appends one `capture`/`success` transaction of amount 42. -/
theorem updateOrderStatus_inserts_transaction_witness :
    (updateOrderStatus 50 [⟨"o1", "m1", "x", 42, "USD", "pending", none, 0⟩] []
        ⟨"o1", "captured", none, some "pt1"⟩).2 =
      [⟨"o1", "capture", 42, "success", some "pt1"⟩] :=
  ((updateOrderStatus_inserts_transaction 50
    [⟨"o1", "m1", "x", 42, "USD", "pending", none, 0⟩] []
    ⟨"o1", "captured", none, some "pt1"⟩
    ⟨"o1", "m1", "x", 42, "USD", "pending", none, 0⟩ (by decide) (by rfl)).1)

/-- C9: an `updateOrderStatus` call whose order id matches no stored order
completes and leaves the store entirely unchanged — the update touches no
row, and the conditional transaction insert is skipped because the re-read
finds nothing. -/
theorem updateOrderStatus_missing_order_noop
    (now : Nat) (orders : List OrderRow) (txs : List TransactionRow)
    (input : UpdateOrderStatusInput)
    (habs : ∀ o ∈ orders, ¬ o.id = input.orderId) :
    updateOrderStatus now orders txs input = (orders, txs) := by
  have hmap : orders.map (applyOrderUpdate now input) = orders := by
    rw [List.map_congr_left (g := id) ?_, List.map_id]
    intro o ho
    simp [applyOrderUpdate, habs o ho]
  have hnone : orders.find? (fun o => o.id == input.orderId) = none :=
    List.find?_eq_none.mpr (fun o ho => by simp [habs o ho])
  by_cases ht : jsTruthyStr input.processorTransactionId <;>
    simp [updateOrderStatus, ht, hmap, hnone]

/-- Witness for `updateOrderStatus_missing_order_noop`: updating order `o2`
in a store holding only `o1` changes nothing. -/
theorem updateOrderStatus_missing_order_noop_witness :
    updateOrderStatus 50 [⟨"o1", "m1", "x", 42, "USD", "pending", none, 0⟩] []
        ⟨"o2", "failed", some "po", some "pt1"⟩ =
      ([⟨"o1", "m1", "x", 42, "USD", "pending", none, 0⟩], []) :=
  updateOrderStatus_missing_order_noop 50
    [⟨"o1", "m1", "x", 42, "USD", "pending", none, 0⟩] []
    ⟨"o2", "failed", some "po", some "pt1"⟩ (by decide)

/-- C10: `getProcessorConfig` returns the decrypted credentials of the first
`processor_configs` row matching (merchantId, processor) in the order the
store returns them — even when that row's `enabled` flag is `false` — and its
result is invariant under arbitrary changes to every row's `enabled` and
`priority` columns: neither is consulted, and no ordering is applied. -/
theorem getProcessorConfig_ignores_enabled_priority
    (decryptJson : String → List (String × String))
    (configs : List ProcessorConfigRow) (merchantId processor : String)
    (r : ProcessorConfigRow)
    (hr : configs.find?
        (fun c => c.merchantId == merchantId && c.processor == processor) = some r)
    (_hdisabled : r.enabled = false) :
    getProcessorConfig decryptJson configs merchantId processor =
      some ⟨merchantId, processor, r.testMode, decryptJson r.credentialsEncrypted⟩
    ∧ ∀ g : ProcessorConfigRow → ProcessorConfigRow,
        (∀ c, (g c).merchantId = c.merchantId ∧ (g c).processor = c.processor ∧
              (g c).credentialsEncrypted = c.credentialsEncrypted ∧
              (g c).testMode = c.testMode) →
        getProcessorConfig decryptJson (configs.map g) merchantId processor =
          getProcessorConfig decryptJson configs merchantId processor := by
  constructor
  · simp [getProcessorConfig, hr]
  · intro g hg
    have hp : ((fun c : ProcessorConfigRow =>
          c.merchantId == merchantId && c.processor == processor) ∘ g) =
        (fun c : ProcessorConfigRow =>
          c.merchantId == merchantId && c.processor == processor) := by
      funext c
      simp [Function.comp, (hg c).1, (hg c).2.1]
    simp only [getProcessorConfig, List.find?_map, hp]
    cases hfound : configs.find?
        (fun c => c.merchantId == merchantId && c.processor == processor) with
    | none => rfl
    | some c => simp [(hg c).2.2.1, (hg c).2.2.2]

/-- Witness for `getProcessorConfig_ignores_enabled_priority`: a store whose
only matching row is disabled (`enabled = false`, `priority = 0`) is still
returned, decrypted. -/
theorem getProcessorConfig_ignores_enabled_priority_witness :
    getProcessorConfig (fun s => [("apiKey", s)])
        [⟨"c1", "m1", "stripe", "ENC", 0, false, true⟩] "m1" "stripe" =
      some ⟨"m1", "stripe", true, [("apiKey", "ENC")]⟩ :=
  (getProcessorConfig_ignores_enabled_priority (fun s => [("apiKey", s)])
    [⟨"c1", "m1", "stripe", "ENC", 0, false, true⟩] "m1" "stripe"
    ⟨"c1", "m1", "stripe", "ENC", 0, false, true⟩ (by rfl) (by rfl)).1
